import Mathlib

/-!
Shallow embedding of the transform-resolution and run-orchestration pipeline
of `sheet_to_triples/__main__.py` (the `sheet_to_triples` command line tool).

Python exceptions are modelled with `Except`; the two exception classes the
code distinguishes (`EnvironmentError` alias `OSError`, and `ValueError`)
are the constructors of `PyExc`.  Filesystem state is modelled as a tree of
named entries (`FTree`), with `os.stat` outcomes passed in explicitly as an
`Except PyExc FTree` (an `error` models `os.stat` raising).  Generators are
modelled by the eager list they produce together with, where the claims need
it, the trace of the calls a consumer forces before the first failure.
-/

/-- The two Python exception classes distinguished by the code:
`OSError` (= `EnvironmentError`, covering I/O failures such as
`FileNotFoundError`) and `ValueError`. -/
inductive PyExc where
  | oserror (msg : String)
  | valueerror (msg : String)
deriving DecidableEq

/-- `str(err)` for the modelled exceptions: the carried message. -/
def PyExc.str : PyExc → String
  | .oserror m => m
  | .valueerror m => m

/-- A filesystem node: a regular file, a directory with named children, or a
node that is neither (FIFO, device, socket, ...). -/
inductive FTree where
  | file : FTree
  | special : FTree
  | dir : List (String × FTree) → FTree

/-- Names of the sub-directories among a directory's entries (the `dirs`
component of the first `os.walk` tuple). -/
def dirNames (entries : List (String × FTree)) : List String :=
  (entries.filter fun e => match e.2 with | .dir _ => true | _ => false).map (·.1)

/-- Names of the non-directory entries of a directory (the `files` component
of the first `os.walk` tuple; `os.walk` puts every non-directory entry,
special files included, in `files`). -/
def fileNames (entries : List (String × FTree)) : List String :=
  (entries.filter fun e => match e.2 with | .dir _ => false | _ => true).map (·.1)

/-- `os.path.join root name` for the cases the code exercises. -/
def joinPath (root name : String) : String := root ++ "/" ++ name

mutual
/-- `os.walk path` over a filesystem node, top-down: for a directory it
yields the `(root, dirs, files)` triple for the top directory first and then
recursively the triples of every nested sub-directory. -/
def walk (path : String) : FTree → List (String × List String × List String)
  | .file => []
  | .special => []
  | .dir entries =>
      (path, dirNames entries, fileNames entries) :: walkChildren path entries

/-- The `os.walk` tuples contributed by the sub-directories of a directory,
in listing order. -/
def walkChildren (path : String) : List (String × FTree) → List (String × List String × List String)
  | [] => []
  | (name, t) :: rest => walk (joinPath path name) t ++ walkChildren path rest
end

/-- `_is_book_path`: `path.endswith(('.xls', '.xlsx'))`, a case-sensitive
suffix match. -/
def _is_book_path (path : String) : Bool :=
  ".xls".toList.isSuffixOf path.toList || ".xlsx".toList.isSuffixOf path.toList

/-- `_parse_book_path(path)`, run to completion: `st = os.stat(path)` (the
`stat` argument carries its outcome; an exception propagates), then if the
node is a directory the code iterates `os.walk(path)` but returns after the
first tuple, yielding `os.path.join(root, f)` for every top-level `f`
passing `_is_book_path`; if the node is a regular file it yields the path
itself; otherwise (special file) the generator body falls through both
branches and yields nothing. -/
def _parse_book_path (path : String) (stat : Except PyExc FTree) :
    Except PyExc (List String) :=
  match stat with
  | .error e => .error e
  | .ok t =>
    match t with
    | .dir entries =>
      match walk path (.dir entries) with
      | [] => .ok []
      | (root, _dirs, files) :: _ =>
          .ok ((files.filter _is_book_path).map (joinPath root))
    | .file => .ok [path]
    | .special => .ok []

/-- A resolved transform descriptor as the resolution pipeline observes it:
its `name` attribute and the value of its `uses_sheet()` method.  (The
`trans` module that produces these is an external collaborator of the code
modelled here; the claims quantify over every possible expander.) -/
structure Transform where
  name : String
  uses_sheet : Bool
deriving DecidableEq

/-- An expander models `trans.Transform.iter_from_name(name, base_path)` run
to completion: a pure function of the name and the optional base path that
either yields a list of transforms or raises. -/
def Expander : Type := String → Option String → Except PyExc (List Transform)

/-- Split a character list at every `'\n'` separator (always at least one
segment, like `str.split`). -/
def splitAtNl : List Char → List (List Char)
  | [] => [[]]
  | c :: rest =>
    match splitAtNl rest with
    | [] => [[c]]
    | h :: t => if c = '\n' then [] :: h :: t else (c :: h) :: t

/-- Python `str.splitlines` restricted to `'\n'`-separated text (the only
separator the list files use): every line is kept, empty lines included; a
trailing newline does not add a final empty line, and the empty string has
no lines. -/
def splitlines (s : String) : List String :=
  if s.isEmpty then []
  else
    let parts := (splitAtNl s.toList).map fun l => (⟨l⟩ : String)
    if parts.getLast? = some "" then parts.dropLast else parts

/-- `os.path.posixpath` head of `p` up to and including the last `'/'`
(empty when `p` has no `'/'`). -/
def headToLastSep (p : String) : String :=
  ⟨(p.toList.reverse.dropWhile (· ≠ '/')).reverse⟩

/-- `os.path.dirname(p)` (POSIX): the head of `p` up to the last `'/'`,
with trailing slashes stripped unless the head is all slashes. -/
def dirname (p : String) : String :=
  let head := headToLastSep p
  if head ≠ "" && !(head.toList.all (· = '/')) then
    ⟨(head.toList.reverse.dropWhile (· = '/')).reverse⟩
  else head

/-- Expand a list of names in order with a fixed base path, concatenating
the results and stopping at the first exception (the behaviour of
sequentially draining `yield from iter_from_name(...)` for each name). -/
def expandAll (expand1 : String → Except PyExc (List Transform)) :
    List String → Except PyExc (List Transform)
  | [] => .ok []
  | n :: rest =>
    match expand1 n with
    | .error e => .error e
    | .ok ts =>
      match expandAll expand1 rest with
      | .error e => .error e
      | .ok more => .ok (ts ++ more)

/-- `_transform_list(path)` drained to a list (`reads` carries the outcome of
`open(path).read()`): `None` yields nothing; otherwise the file is read,
split into lines with no filtering, and every line is expanded with
`base_path = os.path.dirname(path)`, results concatenated in file order. -/
def _transform_list (expand : Expander) (reads : String → Except PyExc String) :
    Option String → Except PyExc (List Transform)
  | none => .ok []
  | some path =>
    match reads path with
    | .error e => .error e
    | .ok content =>
        expandAll (fun n => expand n (some (dirname path))) (splitlines content)

/-- The message built by `list_from_parser_iter` for `parser.error`:
`'{a} argument: {e}'.format(a=argument, e=err)`. -/
def parser_error_msg (argument : String) (e : PyExc) : String :=
  argument ++ " argument: " ++ e.str

/-- How `parser.parse_args` in `parse_args` can end: a namespace, a
`parser.error` exit (message on stderr, `SystemExit(2)`), or an exception
that argparse does not catch and that propagates out of argument parsing. -/
inductive ParseOutcome (α : Type) where
  | ok (a : α)
  | parserError (msg : String)
  | uncaught (e : PyExc)

/-- Resolving the positional transform names:
`list(itertools.chain.from_iterable(list_from_parser_iter(parser,
trans.Transform.iter_from_name(name), name) for name in args.transform))`.
The first component is the trace of names whose expansion was forced: the
outer `list(...)` drains the generator expression name by name, and
`parser.error` on the first failing name exits before any later name is
touched. -/
def resolveNames (expand1 : String → Except PyExc (List Transform)) :
    List String → List String × Except String (List Transform)
  | [] => ([], .ok [])
  | n :: rest =>
    match expand1 n with
    | .error e => ([n], .error (parser_error_msg n e))
    | .ok ts =>
      let (tr, res) := resolveNames expand1 rest
      (n :: tr, match res with
        | .ok more => .ok (ts ++ more)
        | .error m => .error m)

/-- `PURGE_MAP`: the module-level dict mapping a purge-rule name to a triple
predicate.  The triple type and the two predicates `rdf.relates_geo_name`
and `rdf.relates_issue` live in the external `rdf` module, so the map is
parameterised by them; `'none'` maps to `lambda _: True`.  Looking a name
up with `PURGE_MAP.get` gives `None` for any other key. -/
def PURGE_MAP {α : Type} (geo issues : α → Bool) : String → Option (α → Bool) :=
  fun name =>
    if name = "none" then some (fun _ => true)
    else if name = "geo" then some geo
    else if name = "issues" then some issues
    else none

/-- `'|'.join(PURGE_MAP.keys())`, the metavar of `--purge-except` (dicts
preserve insertion order). -/
def purge_metavar : String := "none|geo|issues"

/-- `set(tf.name for tf in args.transform if tf.uses_sheet())`, determinised
to first-appearance order: the distinct names of the transforms that require
a sheet. -/
def need_book_names (ts : List Transform) : List String :=
  ((ts.filter (·.uses_sheet)).map (·.name)).dedup

/-- `f'transforms {need_book} require --book'` with the set rendered in
first-appearance order. -/
def book_required_msg (names : List String) : String :=
  "transforms \x7b" ++ String.intercalate ", " names ++ "\x7d require --book"

/-- Modelled from the spec: `run.default_model`, the fixed well-known
default model location (the `run` module is an external collaborator). -/
def default_model : String := "default_model.json"

/-- The raw command line as `parser.parse_args` sees it, with the outcome of
`os.stat` attached to each `--book` occurrence: `book` lists the `--book`
values in order (empty when the option was never given, in which case the
namespace attribute stays `None`), `transform` the positional names,
`purge_except` the raw `--purge-except` value (default `'none'`). -/
structure Cli where
  book : List (String × Except PyExc FTree)
  transform : List String
  from_list : Option String
  non_unique_from : Option String
  purge_except : String
  model : Option String
  model_out : Option String

/-- The `--book` extend actions run during `parser.parse_args`: each
occurrence's generator is drained by `items.extend(...)` in option order and
the yielded paths are concatenated.  An `OSError` or `ValueError` raised
while draining happens inside the action, where argparse catches nothing
(its type-conversion guard only sees the generator construction, which
raises nothing), so it stops parsing at that occurrence and propagates. -/
def bookExtend : List (String × Except PyExc FTree) → Except PyExc (List String)
  | [] => .ok []
  | (p, st) :: rest =>
    match _parse_book_path p st with
    | .error e => .error e
    | .ok bs =>
      match bookExtend rest with
      | .error e => .error e
      | .ok more => .ok (bs ++ more)

/-- The value of `args.book` after parsing: `None` when `--book` was never
supplied, otherwise the concatenated expansions. -/
def bookValue (occs : List (String × Except PyExc FTree)) :
    Except PyExc (Option (List String)) :=
  match occs with
  | [] => .ok none
  | x :: rest => (bookExtend (x :: rest)).map some

/-- Python truthiness of `args.book` (`None` and `[]` are both falsy). -/
def bookFalsy : Option (List String) → Bool
  | none => true
  | some l => l.isEmpty

/-- The validated namespace `parse_args` returns on success. -/
structure ResolvedArgs (α : Type) where
  book : Option (List String)
  transform : List Transform
  non_unique_from : List Transform
  purge_except : α → Bool
  model : Option String
  model_out : Option String

/-- The steps of `parse_args` after the missing-`--book` check: the
`--purge-except` validation (`if not args.purge_except: parser.error(...)`)
and the defaulting of `args.model` to `run.default_model` when only
`--model-out` was given, ending in the validated namespace. -/
def purgeModelStage {α : Type} (geo issues : α → Bool) (cli : Cli)
    (book : Option (List String)) (ts ns : List Transform) :
    ParseOutcome (ResolvedArgs α) :=
  match PURGE_MAP geo issues cli.purge_except with
  | none => .parserError ("--purge-except must be one of " ++ purge_metavar)
  | some pred =>
    .ok { book := book
          transform := ts
          non_unique_from := ns
          purge_except := pred
          model := if cli.model_out.isSome && cli.model.isNone
                   then some default_model else cli.model
          model_out := cli.model_out }

/-- `finishArgs`, the tail of `parse_args` after the transform lists are
resolved: the missing-`--book` cross-field check (`if not args.book: ...`
with `parser.error` when any resolved transform needs a sheet), then
`purgeModelStage`. -/
def finishArgs {α : Type} (geo issues : α → Bool) (cli : Cli) (book : Option (List String))
    (ts ns : List Transform) : ParseOutcome (ResolvedArgs α) :=
  if bookFalsy book && !(need_book_names ts).isEmpty then
    .parserError (book_required_msg (need_book_names ts))
  else purgeModelStage geo issues cli book ts ns

/-- `parse_args(argv)` after option parsing, as a function of the expander,
the list-file reader and the raw command line.  The first component is the
trace of positional names whose expansion was forced.  Steps, in source
order: the `--book` extend actions (already run inside `parser.parse_args`;
a raised exception propagates uncaught), the eager expansion of the
positional transform names with `parser.error` on the first failure, the
`--from-list` expansion prepended via `args.transform[:0] = ...`, the
`--non-unique-from` expansion stored separately, then the checks of
`finishArgs`. -/
def parse_args {α : Type} (geo issues : α → Bool) (expand : Expander)
    (reads : String → Except PyExc String) (cli : Cli) :
    List String × ParseOutcome (ResolvedArgs α) :=
  match bookValue cli.book with
  | .error e => ([], .uncaught e)
  | .ok book =>
    match resolveNames (fun n => expand n none) cli.transform with
    | (tr, .error msg) => (tr, .parserError msg)
    | (tr, .ok ps) =>
      match _transform_list expand reads cli.from_list with
      | .error e => (tr, .parserError (parser_error_msg "--from-list" e))
      | .ok ls =>
        match _transform_list expand reads cli.non_unique_from with
        | .error e => (tr, .parserError (parser_error_msg "--non-unique-from" e))
        | .ok ns => (tr, finishArgs geo issues cli book (ls ++ ps) ns)

/-- Observable side effects of `run_runner`, in order of occurrence. -/
inductive Event where
  | parsed (path : String)
  | terms
  | nonUniques
  | ran
  | saved (path : String)
  | shown
deriving DecidableEq

/-- The `Runner` interface `run_runner` drives (the `run` module is an
external collaborator): graph parsing and `runner.run` may raise; the
claims quantify over every implementation. -/
structure RunnerOps (σ : Type) where
  graph_parse : σ → String → Except PyExc σ
  set_terms : σ → σ
  use_non_uniques : σ → List Transform → σ
  run : σ → List Transform → Except PyExc σ
  save_model : σ → String → σ
  verbose : σ → Bool

/-- The fields of the validated namespace that `run_runner` reads. -/
structure RunArgs where
  add_graph : List String
  transform : List Transform
  non_unique_from : List Transform
  model_out : Option String

/-- `runner.graph.parse(g, format='ttl')` over the `--add-graph` paths in
argument order, recording an event per parsed graph and stopping at the
first exception. -/
def parseGraphs {σ : Type} (ops : RunnerOps σ) :
    σ → List String → List Event × Except PyExc σ
  | r, [] => ([], .ok r)
  | r, g :: rest =>
    match ops.graph_parse r g with
    | .error e => ([], .error e)
    | .ok r' => (.parsed g :: (parseGraphs ops r' rest).1, (parseGraphs ops r' rest).2)

/-- The `if args.add_graph:` block of `run_runner`: parse every
`--add-graph` graph into the model, then rebuild the term index with
`runner.set_terms(iter(runner.graph))`; skipped when no graph was given. -/
def ingest {σ : Type} (ops : RunnerOps σ) (r : σ) (gs : List String) :
    List Event × Except PyExc σ :=
  if gs.isEmpty then ([], .ok r)
  else
    match parseGraphs ops r gs with
    | (evs, .error e) => (evs, .error e)
    | (evs, .ok r') => (evs ++ [.terms], .ok (ops.set_terms r'))

/-- Events of the `if args.non_unique_from:` step of `run_runner`. -/
def nonUniqueEvents (args : RunArgs) : List Event :=
  if args.non_unique_from.isEmpty then [] else [.nonUniques]

/-- Runner state after the `if args.non_unique_from:` step of `run_runner`. -/
def nonUniqueState {σ : Type} (ops : RunnerOps σ) (r1 : σ) (args : RunArgs) : σ :=
  if args.non_unique_from.isEmpty then r1
  else ops.use_non_uniques r1 args.non_unique_from

/-- The tail of `run_runner` after graph ingestion succeeded: when there is
at least one graph addition or one transform, `runner.run(args.transform)`
followed, only on success and only when `--model-out` was given, by
`runner.save_model(args.model_out)`; with nothing to do it prints the graph
when the runner is verbose. -/
def runPhase {σ : Type} (ops : RunnerOps σ) (args : RunArgs) (evs0 : List Event)
    (r1 : σ) : List Event × Except PyExc σ :=
  if !args.add_graph.isEmpty || !args.transform.isEmpty then
    match ops.run (nonUniqueState ops r1 args) args.transform with
    | .error e => (evs0 ++ nonUniqueEvents args, .error e)
    | .ok r3 =>
      match args.model_out with
      | some p =>
          (evs0 ++ nonUniqueEvents args ++ [.ran, .saved p],
           .ok (ops.save_model r3 p))
      | none => (evs0 ++ nonUniqueEvents args ++ [.ran], .ok r3)
  else if ops.verbose (nonUniqueState ops r1 args) then
    (evs0 ++ nonUniqueEvents args ++ [.shown], .ok (nonUniqueState ops r1 args))
  else
    (evs0 ++ nonUniqueEvents args, .ok (nonUniqueState ops r1 args))

/-- `run_runner(runner, args)`: ingest the `--add-graph` graphs and rebuild
the term index, then run `runPhase`; the event list records what happened,
in order, and an exception aborts the remaining steps. -/
def run_runner {σ : Type} (ops : RunnerOps σ) (r : σ) (args : RunArgs) :
    List Event × Except PyExc σ :=
  match ingest ops r args.add_graph with
  | (evs0, .error e) => (evs0, .error e)
  | (evs0, .ok r1) => runPhase ops args evs0 r1

/-- Whether a `ParseOutcome` is a `parser.error` exit. -/
def ParseOutcome.isParserError {α : Type} : ParseOutcome α → Bool
  | .parserError _ => true
  | _ => false

/-- An expander for witnesses: every name yields one sheet-free transform of
that name. -/
def expandPlain : Expander := fun n _ => .ok [⟨n, false⟩]

/-- An expander for witnesses: every name yields one sheet-requiring
transform of that name. -/
def expandSheet : Expander := fun n _ => .ok [⟨n, true⟩]

/-- A list-file reader for witnesses: every file reads as empty. -/
def readsEmpty : String → Except PyExc String := fun _ => .ok ""

/-- A list-file reader for witnesses: every file reads as the three lines
`a`, `` (empty) and `b`. -/
def readsAB : String → Except PyExc String := fun _ => .ok "a\n\nb"

/-- A bare command line for witnesses: no options, no positionals. -/
def cli0 : Cli :=
  { book := [], transform := [], from_list := none, non_unique_from := none
    purge_except := "none", model := none, model_out := none }

/-- The command line of the `--book` counterexample: a single `--book`
value whose `os.stat` raises `FileNotFoundError`. -/
def cliMissingBook : Cli :=
  { cli0 with book := [("missing.xlsx", .error (.oserror "No such file or directory: missing.xlsx"))] }

/-- A command line for witnesses: one existing `--book` file, a
`--from-list` file and one positional transform. -/
def cliList : Cli :=
  { cli0 with
    book := [("b.xls", .ok .file)], transform := ["c"], from_list := some "d/l.txt" }

/-- The namespace `parse_args` resolves `cliList` to under `expandPlain`
and `readsAB`. -/
def raList : ResolvedArgs Unit :=
  { book := some ["b.xls"]
    transform := [⟨"a", false⟩, ⟨"", false⟩, ⟨"b", false⟩, ⟨"c", false⟩]
    non_unique_from := [], purge_except := fun _ => true
    model := none, model_out := none }

/-- An expander for witnesses that fails on the name `bad` and yields one
sheet-free transform for every other name. -/
def expandBad : Expander := fun n _ =>
  if n = "bad" then .error (.valueerror "unknown transform bad") else .ok [⟨n, false⟩]

/-- A command line for witnesses: four positional transforms of which the
second is `bad`. -/
def cliBad : Cli := { cli0 with transform := ["ok1", "bad", "ok2", "ok3"] }

/-- A command line for witnesses: no `--book` and one positional transform
(which `expandSheet` resolves to a sheet-requiring transform). -/
def cliSheet : Cli := { cli0 with transform := ["s1"] }

/-- A command line for witnesses: an existing `--book` file and an
unrecognized `--purge-except` name. -/
def cliBadPurge : Cli :=
  { cli0 with book := [("b.xls", .ok .file)], purge_except := "bogus" }

/-- A command line for witnesses: a `--book` directory containing no
spreadsheet-extensioned entry, and one positional transform. -/
def cliEmptyDir : Cli :=
  { cli0 with
    book := [("books", .ok (.dir [("readme.txt", .file)]))], transform := ["s1"] }

/-- A runner interface for witnesses over a unit state: every operation
succeeds. -/
def opsOk : RunnerOps Unit :=
  { graph_parse := fun _ _ => .ok (), set_terms := fun _ => ()
    use_non_uniques := fun _ _ => (), run := fun _ _ => .ok ()
    save_model := fun _ _ => (), verbose := fun _ => false }

/-- A runner interface for witnesses whose `run` raises. -/
def opsRunFails : RunnerOps Unit :=
  { opsOk with run := fun _ _ => .error (.valueerror "transform failed") }

/-- Run arguments for witnesses: one transform to execute and an output
model path. -/
def argsOut : RunArgs :=
  { add_graph := [], transform := [⟨"t", false⟩], non_unique_from := []
    model_out := some "out.json" }

/-!
Helper lemmas shared by the claim theorems.
-/

theorem expandAll_ok (e1 : String → Except PyExc (List Transform))
    (f : String → List Transform) :
    ∀ l : List String, (∀ n ∈ l, e1 n = .ok (f n)) →
      expandAll e1 l = .ok ((l.map f).flatten)
  | [], _ => rfl
  | n :: rest, h => by
    have hn : e1 n = .ok (f n) := h n (List.mem_cons_self n rest)
    have ih := expandAll_ok e1 f rest (fun m hm => h m (List.mem_cons_of_mem n hm))
    simp [expandAll, hn, ih]

theorem resolveNames_ok (e1 : String → Except PyExc (List Transform))
    (f : String → List Transform) :
    ∀ l : List String, (∀ n ∈ l, e1 n = .ok (f n)) →
      resolveNames e1 l = (l, .ok ((l.map f).flatten))
  | [], _ => rfl
  | n :: rest, h => by
    have hn : e1 n = .ok (f n) := h n (List.mem_cons_self n rest)
    have ih := resolveNames_ok e1 f rest (fun m hm => h m (List.mem_cons_of_mem n hm))
    simp [resolveNames, hn, ih]

theorem resolveNames_stop (e1 : String → Except PyExc (List Transform))
    (f : String → List Transform) (bad : String) (e : PyExc) :
    ∀ pre : List String, (∀ n ∈ pre, e1 n = .ok (f n)) → e1 bad = .error e →
      ∀ post : List String,
        resolveNames e1 (pre ++ bad :: post) =
          (pre ++ [bad], .error (parser_error_msg bad e))
  | [], _, hbad, post => by simp [resolveNames, hbad]
  | n :: pre, h, hbad, post => by
    have hn : e1 n = .ok (f n) := h n (List.mem_cons_self n pre)
    have ih := resolveNames_stop e1 f bad e pre
      (fun m hm => h m (List.mem_cons_of_mem n hm)) hbad post
    simp [resolveNames, hn, ih]

theorem purgeModelStage_ok {α : Type} (geo issues : α → Bool) (cli : Cli)
    (book : Option (List String)) (ts ns : List Transform) (ra : ResolvedArgs α)
    (h : purgeModelStage geo issues cli book ts ns = .ok ra) :
    ra.book = book ∧ ra.transform = ts ∧ ra.non_unique_from = ns := by
  rw [purgeModelStage] at h
  cases hp : PURGE_MAP geo issues cli.purge_except with
  | none => rw [hp] at h; cases h
  | some pred => rw [hp] at h; cases h; exact ⟨rfl, rfl, rfl⟩

theorem finishArgs_ok {α : Type} (geo issues : α → Bool) (cli : Cli)
    (book : Option (List String)) (ts ns : List Transform) (ra : ResolvedArgs α)
    (h : finishArgs geo issues cli book ts ns = .ok ra) :
    ra.book = book ∧ ra.transform = ts ∧ ra.non_unique_from = ns := by
  rw [finishArgs] at h
  split at h
  · cases h
  · exact purgeModelStage_ok geo issues cli book ts ns ra h

/-!
Claim theorems.
-/

/-- Claim C8: for a directory path, `_parse_book_path` yields exactly the
entries directly inside the top directory whose names end in `.xls` or
`.xlsx` under a case-sensitive suffix match — the recursive `os.walk` is
abandoned after its first tuple, so nothing from nested sub-directories is
yielded — and for a regular-file path it yields that path unconditionally,
regardless of extension. -/
theorem book_locator_dir_and_file (path : String) (entries : List (String × FTree)) :
    _parse_book_path path (.ok (.dir entries)) =
      .ok (((fileNames entries).filter _is_book_path).map (joinPath path)) ∧
    _parse_book_path path (.ok .file) = .ok [path] ∧
    _is_book_path "a.xls" = true ∧ _is_book_path "b.xlsx" = true ∧
    _is_book_path "c.XLS" = false ∧ _is_book_path "d.txt" = false := by
  refine ⟨?_, rfl, by decide, by decide, by decide, by decide⟩
  rw [_parse_book_path, walk]

/-- Claim C2, counterexample: a path that exists but is neither a directory
nor a regular file (a FIFO, say) makes `_parse_book_path` silently yield an
empty result — no I/O failure is propagated, contradicting the claim. -/
theorem book_locator_special_counterexample :
    _parse_book_path "fifo.xlsx" (.ok .special) = .ok [] ∧
    (_parse_book_path "fifo.xlsx" (.ok .special)).isOk = true := by
  exact ⟨rfl, rfl⟩

/-- Claim C2 as amended: `_parse_book_path` propagates an I/O failure
exactly when `os.stat` itself raises (e.g. the path is missing); for a path
that exists but is neither a directory nor a regular file it silently
yields no results (an empty yield, not an error). -/
theorem book_locator_special_amended (p : String) (e : PyExc) :
    _parse_book_path p (.error e) = .error e ∧
    _parse_book_path p (.ok .special) = .ok [] := ⟨rfl, rfl⟩

/-- Claim C9: `_transform_list` passes every line of the list file to name
expansion with no filtering — `splitlines` keeps empty lines, as the
concrete `"a\n\nb"` conjunct shows — expands each token with the directory
containing the list file as the base path, concatenates the results in file
order, and maps a `None` path to an empty sequence rather than an error. -/
theorem transform_list_lines (expand : Expander)
    (reads : String → Except PyExc String) (path content : String)
    (f : String → List Transform)
    (hread : reads path = .ok content)
    (hexp : ∀ n ∈ splitlines content, expand n (some (dirname path)) = .ok (f n)) :
    _transform_list expand reads (some path) =
      .ok (((splitlines content).map f).flatten) ∧
    _transform_list expand reads none = .ok [] ∧
    splitlines "a\n\nb" = ["a", "", "b"] := by
  refine ⟨?_, rfl, by decide⟩
  rw [_transform_list, hread]
  exact expandAll_ok _ f _ hexp

/-- Claim C9, witness: a two-line list file at `d/l.txt` whose every line
(the empty one included) expands to a single transform with the file's
directory as base path. -/
theorem transform_list_lines_witness :
    _transform_list expandPlain readsAB (some "d/l.txt") =
      .ok (((splitlines "a\n\nb").map fun n => [(⟨n, false⟩ : Transform)]).flatten) ∧
    _transform_list expandPlain readsAB none = .ok [] ∧
    splitlines "a\n\nb" = ["a", "", "b"] :=
  transform_list_lines expandPlain readsAB "d/l.txt" "a\n\nb"
    (fun n => [⟨n, false⟩]) rfl (fun _ _ => rfl)

/-- Claim C3: when resolution succeeds, the final execution list is exactly
the expansions of the `--from-list` file's names in file order, prepended
(via `args.transform[:0] = ...`) to the expansions of the positional names
in argument order. -/
theorem from_list_prepended {α : Type} (geo issues : α → Bool) (expand : Expander)
    (reads : String → Except PyExc String) (cli : Cli) (flPath content : String)
    (f g : String → List Transform) (bk : Option (List String))
    (ns : List Transform) (ra : ResolvedArgs α)
    (hbook : bookValue cli.book = .ok bk)
    (hfl : cli.from_list = some flPath)
    (hread : reads flPath = .ok content)
    (hg : ∀ n ∈ splitlines content, expand n (some (dirname flPath)) = .ok (g n))
    (hf : ∀ n ∈ cli.transform, expand n none = .ok (f n))
    (hnu : _transform_list expand reads cli.non_unique_from = .ok ns)
    (hok : (parse_args geo issues expand reads cli).2 = .ok ra) :
    ra.transform =
      ((splitlines content).map g).flatten ++ ((cli.transform).map f).flatten := by
  have hpos := resolveNames_ok (fun n => expand n none) f cli.transform hf
  have hls : _transform_list expand reads cli.from_list =
      .ok (((splitlines content).map g).flatten) := by
    rw [hfl, _transform_list, hread]
    exact expandAll_ok _ g _ hg
  rw [parse_args, hbook, hpos] at hok
  simp only [hls, hnu] at hok
  exact (finishArgs_ok geo issues cli bk _ ns ra hok).2.1

/-- Claim C3, witness: `--from-list d/l.txt` (lines `a`, empty, `b`) with
positional transform `c` resolves to the list-file expansions followed by
the positional expansion. -/
theorem from_list_prepended_witness :
    raList.transform =
      ((splitlines "a\n\nb").map fun n => [(⟨n, false⟩ : Transform)]).flatten ++
        ((cliList.transform).map fun n => [(⟨n, false⟩ : Transform)]).flatten :=
  from_list_prepended (fun _ : Unit => true) (fun _ => true) expandPlain readsAB
    cliList "d/l.txt" "a\n\nb" (fun n => [⟨n, false⟩]) (fun n => [⟨n, false⟩])
    (some ["b.xls"]) [] raList rfl rfl rfl (fun _ _ => rfl) (fun _ _ => rfl) rfl rfl

/-- Claim C4: when expansion of a positional transform name fails, the
eager resolution forces exactly the names up to and including the failing
one — the trace is `pre ++ [bad]`, so nothing after the failing name is
expanded — and exits with a parser error naming that name. -/
theorem positional_failure_stops {α : Type} (geo issues : α → Bool) (expand : Expander)
    (reads : String → Except PyExc String) (cli : Cli) (bk : Option (List String))
    (pre post : List String) (bad : String) (e : PyExc) (f : String → List Transform)
    (hbook : bookValue cli.book = .ok bk)
    (hsplit : cli.transform = pre ++ bad :: post)
    (hpre : ∀ n ∈ pre, expand n none = .ok (f n))
    (hbad : expand bad none = .error e) :
    (parse_args geo issues expand reads cli).1 = pre ++ [bad] ∧
    (parse_args geo issues expand reads cli).2 =
      .parserError (parser_error_msg bad e) := by
  have h := resolveNames_stop (fun n => expand n none) f bad e pre hpre hbad post
  rw [parse_args, hbook, hsplit, h]
  exact ⟨rfl, rfl⟩

/-- Claim C4, witness: with positionals `ok1 bad ok2 ok3` and an expander
failing on `bad`, only `ok1` and `bad` are expanded and the parser error
names `bad`. -/
theorem positional_failure_stops_witness :
    (parse_args (fun _ : Unit => true) (fun _ => true) expandBad readsEmpty cliBad).1 =
      ["ok1"] ++ ["bad"] ∧
    (parse_args (fun _ : Unit => true) (fun _ => true) expandBad readsEmpty cliBad).2 =
      .parserError (parser_error_msg "bad" (.valueerror "unknown transform bad")) :=
  positional_failure_stops (fun _ : Unit => true) (fun _ => true) expandBad readsEmpty
    cliBad none ["ok1"] ["ok2", "ok3"] "bad" (.valueerror "unknown transform bad")
    (fun n => [⟨n, false⟩]) rfl rfl
    (fun n hn => by rw [List.mem_singleton] at hn; subst hn; rfl) rfl

theorem need_book_names_mem (ts : List Transform) (nm : String) :
    nm ∈ need_book_names ts ↔ ∃ t ∈ ts, t.uses_sheet = true ∧ t.name = nm := by
  simp only [need_book_names, List.mem_dedup, List.mem_map, List.mem_filter]
  constructor
  · rintro ⟨t, ⟨ht, hu⟩, hn⟩
    exact ⟨t, ht, hu, hn⟩
  · rintro ⟨t, ht, hu, hn⟩
    exact ⟨t, ⟨ht, hu⟩, hn⟩

theorem need_book_names_eq_nil (ts : List Transform) :
    need_book_names ts = [] ↔ ∀ t ∈ ts, t.uses_sheet = false := by
  simp only [need_book_names, List.dedup_eq_nil, List.map_eq_nil_iff,
    List.filter_eq_nil_iff, Bool.not_eq_true]

theorem parse_args_ok_stages {α : Type} (geo issues : α → Bool) (expand : Expander)
    (reads : String → Except PyExc String) (cli : Cli) (bk : Option (List String))
    (ps ls ns : List Transform) (tr : List String)
    (hbook : bookValue cli.book = .ok bk)
    (hpos : resolveNames (fun n => expand n none) cli.transform = (tr, .ok ps))
    (hfl : _transform_list expand reads cli.from_list = .ok ls)
    (hnu : _transform_list expand reads cli.non_unique_from = .ok ns) :
    parse_args geo issues expand reads cli =
      (tr, finishArgs geo issues cli bk (ls ++ ps) ns) := by
  rw [parse_args, hbook, hpos]
  simp only [hfl, hnu]

/-- Claim C5: with no `--book` supplied and every expansion succeeding, the
cross-field check fails with a parser error listing the distinct names of
the transforms whose `uses_sheet()` is true and stating that `--book` is
required (the second conjunct characterises exactly which names are
listed); when no resolved transform requires a sheet the check passes and
resolution proceeds to the remaining validation steps. -/
theorem book_required_on_sheet {α : Type} (geo issues : α → Bool) (expand : Expander)
    (reads : String → Except PyExc String) (cli : Cli)
    (ps ls ns : List Transform) (tr : List String)
    (hbook : cli.book = [])
    (hpos : resolveNames (fun n => expand n none) cli.transform = (tr, .ok ps))
    (hfl : _transform_list expand reads cli.from_list = .ok ls)
    (hnu : _transform_list expand reads cli.non_unique_from = .ok ns) :
    ((∃ t ∈ ls ++ ps, t.uses_sheet = true) →
      (parse_args geo issues expand reads cli).2 =
        .parserError (book_required_msg (need_book_names (ls ++ ps)))) ∧
    (∀ nm, nm ∈ need_book_names (ls ++ ps) ↔
      ∃ t ∈ ls ++ ps, t.uses_sheet = true ∧ t.name = nm) ∧
    ((∀ t ∈ ls ++ ps, t.uses_sheet = false) →
      (parse_args geo issues expand reads cli).2 =
        purgeModelStage geo issues cli none (ls ++ ps) ns) := by
  have hbv : bookValue cli.book = .ok none := by rw [hbook]; rfl
  have hpa := parse_args_ok_stages geo issues expand reads cli none ps ls ns tr
    hbv hpos hfl hnu
  refine ⟨?_, fun nm => need_book_names_mem _ nm, ?_⟩
  · rintro ⟨t, ht, hu⟩
    have hne : (need_book_names (ls ++ ps)).isEmpty = false := by
      cases h : (need_book_names (ls ++ ps)).isEmpty
      · rfl
      · exfalso
        rw [List.isEmpty_iff, need_book_names_eq_nil] at h
        rw [h t ht] at hu
        exact Bool.false_ne_true hu
    rw [hpa]
    show finishArgs geo issues cli none (ls ++ ps) ns = _
    simp [finishArgs, bookFalsy, hne]
  · intro hall
    have hnil : need_book_names (ls ++ ps) = [] := (need_book_names_eq_nil _).mpr hall
    rw [hpa]
    show finishArgs geo issues cli none (ls ++ ps) ns = _
    simp [finishArgs, bookFalsy, hnil]

/-- Claim C5, witness: no `--book`, positional `s1` resolving to a
sheet-requiring transform: resolution fails naming `s1` and stating that
`--book` is required. -/
theorem book_required_on_sheet_witness :
    ((∃ t ∈ ([] : List Transform) ++ [(⟨"s1", true⟩ : Transform)], t.uses_sheet = true) →
      (parse_args (fun _ : Unit => true) (fun _ => true) expandSheet readsEmpty cliSheet).2 =
        .parserError (book_required_msg (need_book_names ([] ++ [(⟨"s1", true⟩ : Transform)])))) ∧
    (∀ nm, nm ∈ need_book_names ([] ++ [(⟨"s1", true⟩ : Transform)]) ↔
      ∃ t ∈ ([] : List Transform) ++ [(⟨"s1", true⟩ : Transform)],
        t.uses_sheet = true ∧ t.name = nm) ∧
    ((∀ t ∈ ([] : List Transform) ++ [(⟨"s1", true⟩ : Transform)], t.uses_sheet = false) →
      (parse_args (fun _ : Unit => true) (fun _ => true) expandSheet readsEmpty cliSheet).2 =
        purgeModelStage (fun _ : Unit => true) (fun _ => true) cliSheet none
          ([] ++ [(⟨"s1", true⟩ : Transform)]) []) :=
  book_required_on_sheet (fun _ : Unit => true) (fun _ => true) expandSheet readsEmpty
    cliSheet [⟨"s1", true⟩] [] [] ["s1"] rfl rfl rfl rfl

/-- Claim C6: `PURGE_MAP` is closed over exactly the names `none`, `geo`,
`issues`; the predicate for `none` is true on every triple; `PURGE_MAP.get`
on any other name yields absence rather than crashing; and when the looked
up `--purge-except` value is absent, resolution (with the earlier steps
succeeding and `--book` non-empty) fails with the validation error listing
the valid choices. -/
theorem purge_map_closed {α : Type} (geo issues : α → Bool) (expand : Expander)
    (reads : String → Except PyExc String) (cli : Cli) (bk : Option (List String))
    (ps ls ns : List Transform) (tr : List String)
    (hbook : bookValue cli.book = .ok bk)
    (hbf : bookFalsy bk = false)
    (hpos : resolveNames (fun n => expand n none) cli.transform = (tr, .ok ps))
    (hfl : _transform_list expand reads cli.from_list = .ok ls)
    (hnu : _transform_list expand reads cli.non_unique_from = .ok ns) :
    (∀ n, (PURGE_MAP geo issues n).isSome = true ↔
      (n = "none" ∨ n = "geo" ∨ n = "issues")) ∧
    (∃ f, PURGE_MAP geo issues "none" = some f ∧ ∀ x, f x = true) ∧
    (∀ n, n ≠ "none" → n ≠ "geo" → n ≠ "issues" → PURGE_MAP geo issues n = none) ∧
    (PURGE_MAP geo issues cli.purge_except = none →
      (parse_args geo issues expand reads cli).2 =
        .parserError ("--purge-except must be one of " ++ purge_metavar)) := by
  refine ⟨?_, ⟨fun _ => true, rfl, fun _ => rfl⟩, ?_, ?_⟩
  · intro n
    constructor
    · intro hs
      by_cases h1 : n = "none"
      · exact Or.inl h1
      by_cases h2 : n = "geo"
      · exact Or.inr (Or.inl h2)
      by_cases h3 : n = "issues"
      · exact Or.inr (Or.inr h3)
      simp [PURGE_MAP, h1, h2, h3] at hs
    · rintro (h | h | h) <;> subst h <;> rfl
  · intro n h1 h2 h3
    simp [PURGE_MAP, h1, h2, h3]
  · intro hp
    have hpa := parse_args_ok_stages geo issues expand reads cli bk ps ls ns tr
      hbook hpos hfl hnu
    rw [hpa]
    show finishArgs geo issues cli bk (ls ++ ps) ns = _
    simp [finishArgs, hbf, purgeModelStage, hp]

/-- Claim C6, witness: `--book b.xls --purge-except bogus` with no
transforms fails with the validation error listing `none|geo|issues`. -/
theorem purge_map_closed_witness :
    (∀ n, (PURGE_MAP (fun _ : Unit => true) (fun _ => false) n).isSome = true ↔
      (n = "none" ∨ n = "geo" ∨ n = "issues")) ∧
    (∃ f, PURGE_MAP (fun _ : Unit => true) (fun _ => false) "none" = some f ∧
      ∀ x, f x = true) ∧
    (∀ n, n ≠ "none" → n ≠ "geo" → n ≠ "issues" →
      PURGE_MAP (fun _ : Unit => true) (fun _ => false) n = none) ∧
    (PURGE_MAP (fun _ : Unit => true) (fun _ => false) cliBadPurge.purge_except = none →
      (parse_args (fun _ : Unit => true) (fun _ => false) expandPlain readsEmpty
        cliBadPurge).2 =
        .parserError ("--purge-except must be one of " ++ purge_metavar)) :=
  purge_map_closed (fun _ : Unit => true) (fun _ => false) expandPlain readsEmpty
    cliBadPurge (some ["b.xls"]) [] [] [] [] rfl rfl rfl rfl rfl

theorem need_book_names_ne_nil (ts : List Transform)
    (h : ∃ t ∈ ts, t.uses_sheet = true) :
    (need_book_names ts).isEmpty = false := by
  obtain ⟨t, ht, hu⟩ := h
  cases hni : (need_book_names ts).isEmpty
  · rfl
  · exfalso
    rw [List.isEmpty_iff, need_book_names_eq_nil] at hni
    rw [hni t ht] at hu
    exact Bool.false_ne_true hu

/-- Claim C10: a `--book` argument that expands to zero book paths (here a
directory with no `.xls`/`.xlsx` entry) leaves `args.book = []`, which the
`if not args.book` truthiness test treats exactly like the absent `None`;
with a sheet-requiring transform resolved, resolution fails with the
`--book`-required error even though `--book` was supplied. -/
theorem empty_book_like_absent {α : Type} (geo issues : α → Bool) (expand : Expander)
    (reads : String → Except PyExc String) (cli : Cli) (p : String)
    (entries : List (String × FTree)) (ps ls ns : List Transform) (tr : List String)
    (hbook : cli.book = [(p, .ok (.dir entries))])
    (hempty : (fileNames entries).filter _is_book_path = [])
    (hpos : resolveNames (fun n => expand n none) cli.transform = (tr, .ok ps))
    (hfl : _transform_list expand reads cli.from_list = .ok ls)
    (hnu : _transform_list expand reads cli.non_unique_from = .ok ns)
    (hsheet : ∃ t ∈ ls ++ ps, t.uses_sheet = true) :
    bookValue cli.book = .ok (some []) ∧
    bookFalsy (some []) = bookFalsy none ∧
    (parse_args geo issues expand reads cli).2 =
      .parserError (book_required_msg (need_book_names (ls ++ ps))) := by
  have hbp : _parse_book_path p (.ok (.dir entries)) = .ok [] := by
    simp [_parse_book_path, walk, hempty]
  have hbv : bookValue cli.book = .ok (some []) := by
    rw [hbook]
    simp [bookValue, bookExtend, hbp, Except.map]
  refine ⟨hbv, rfl, ?_⟩
  have hpa := parse_args_ok_stages geo issues expand reads cli (some []) ps ls ns tr
    hbv hpos hfl hnu
  have hne := need_book_names_ne_nil (ls ++ ps) hsheet
  rw [hpa]
  show finishArgs geo issues cli (some []) (ls ++ ps) ns = _
  simp [finishArgs, bookFalsy, hne]

/-- Claim C10, witness: `--book books` where `books` is a directory whose
only entry is `readme.txt`, plus sheet-requiring transform `s1`: resolution
fails requiring `--book` even though `--book` was supplied. -/
theorem empty_book_like_absent_witness :
    bookValue cliEmptyDir.book = .ok (some []) ∧
    bookFalsy (some []) = bookFalsy none ∧
    (parse_args (fun _ : Unit => true) (fun _ => true) expandSheet readsEmpty
      cliEmptyDir).2 =
      .parserError (book_required_msg (need_book_names ([] ++ [(⟨"s1", true⟩ : Transform)]))) :=
  empty_book_like_absent (fun _ : Unit => true) (fun _ => true) expandSheet readsEmpty
    cliEmptyDir "books" [("readme.txt", .file)] [⟨"s1", true⟩] [] [] ["s1"]
    rfl (by decide) rfl rfl rfl ⟨⟨"s1", true⟩, by simp, rfl⟩

theorem bookExtend_error (f : String × Except PyExc FTree → List String) :
    ∀ pre : List (String × Except PyExc FTree),
      (∀ x ∈ pre, _parse_book_path x.1 x.2 = .ok (f x)) →
      ∀ (p : String) (st : Except PyExc FTree)
        (post : List (String × Except PyExc FTree)) (e : PyExc),
        _parse_book_path p st = .error e →
        bookExtend (pre ++ (p, st) :: post) = .error e
  | [], _, p, st, post, e, hbad => by simp [bookExtend, hbad]
  | x :: pre, h, p, st, post, e, hbad => by
    obtain ⟨a, b⟩ := x
    have hx := h (a, b) (List.mem_cons_self (a, b) pre)
    have ih := bookExtend_error f pre
      (fun y hy => h y (List.mem_cons_of_mem (a, b) hy)) p st post e hbad
    simp [bookExtend, hx, ih]

/-- Claim C1, counterexample: a `--book` value whose path is missing makes
`os.stat` raise `FileNotFoundError` while the extend action drains the
`_parse_book_path` generator, inside `parser.parse_args`, where argparse
catches nothing (its type-conversion guard for `TypeError`/`ValueError`
only sees the generator's construction, which raises nothing); the
exception propagates uncaught out of argument parsing instead of being
reported as a parser error naming `--book`. -/
theorem book_error_unreported_counterexample :
    (parse_args (fun _ : Unit => true) (fun _ => true) expandPlain readsEmpty
        cliMissingBook).2 =
      .uncaught (.oserror "No such file or directory: missing.xlsx") ∧
    ((parse_args (fun _ : Unit => true) (fun _ => true) expandPlain readsEmpty
        cliMissingBook).2).isParserError = false :=
  ⟨rfl, rfl⟩

/-- Claim C1 as amended: an I/O or value error raised while expanding a
`--book` value is not caught by argument resolution; parsing ends with that
exception propagating uncaught (and in particular with no parser error
naming any argument), because the `--book` type function is a generator
whose body only runs inside the `extend` action. -/
theorem book_error_uncaught {α : Type} (geo issues : α → Bool) (expand : Expander)
    (reads : String → Except PyExc String) (cli : Cli)
    (pre : List (String × Except PyExc FTree)) (p : String)
    (st : Except PyExc FTree) (post : List (String × Except PyExc FTree))
    (e : PyExc) (f : String × Except PyExc FTree → List String)
    (hcli : cli.book = pre ++ (p, st) :: post)
    (hpre : ∀ x ∈ pre, _parse_book_path x.1 x.2 = .ok (f x))
    (hbad : _parse_book_path p st = .error e) :
    (parse_args geo issues expand reads cli).2 = .uncaught e ∧
    ((parse_args geo issues expand reads cli).2).isParserError = false := by
  have hext := bookExtend_error f pre hpre p st post e hbad
  have hbv : bookValue cli.book = .error e := by
    rw [hcli]
    cases pre with
    | nil =>
      rw [List.nil_append] at hext
      simp [bookValue, hext, Except.map]
    | cons x xs =>
      rw [List.cons_append] at hext
      simp [bookValue, hext, Except.map]
  rw [parse_args, hbv]
  exact ⟨rfl, rfl⟩

/-- Claim C1 as amended, witness: the missing `--book` path ends argument
parsing with the uncaught `FileNotFoundError`. -/
theorem book_error_uncaught_witness :
    (parse_args (fun _ : Unit => true) (fun _ => true) expandPlain readsEmpty
        cliMissingBook).2 =
      .uncaught (.oserror "No such file or directory: missing.xlsx") ∧
    ((parse_args (fun _ : Unit => true) (fun _ => true) expandPlain readsEmpty
        cliMissingBook).2).isParserError = false :=
  book_error_uncaught (fun _ : Unit => true) (fun _ => true) expandPlain readsEmpty
    cliMissingBook [] "missing.xlsx"
    (.error (.oserror "No such file or directory: missing.xlsx")) []
    (.oserror "No such file or directory: missing.xlsx") (fun _ => [])
    rfl (fun x hx => absurd hx (List.not_mem_nil x)) rfl

theorem parseGraphs_no_saved {σ : Type} (ops : RunnerOps σ) (q : String) :
    ∀ (r : σ) (gs : List String), Event.saved q ∉ (parseGraphs ops r gs).1
  | _, [] => List.not_mem_nil _
  | r, g :: gs => by
    rw [parseGraphs]
    cases hp : ops.graph_parse r g with
    | error e => simp
    | ok r' =>
      have ih := parseGraphs_no_saved ops q r' gs
      intro hmem
      rcases List.mem_cons.mp hmem with h | h
      · cases h
      · exact ih h

theorem ingest_no_saved {σ : Type} (ops : RunnerOps σ) (r : σ) (gs : List String)
    (q : String) : Event.saved q ∉ (ingest ops r gs).1 := by
  rw [ingest]
  split
  · exact List.not_mem_nil _
  · cases hpg : parseGraphs ops r gs with
    | mk evs res =>
      have hno := parseGraphs_no_saved ops q r gs
      rw [hpg] at hno
      cases res with
      | error e => exact hno
      | ok r' =>
        intro hmem
        rcases List.mem_append.mp hmem with h | h
        · exact hno h
        · cases List.mem_singleton.mp h

theorem nonUniqueEvents_no_saved (args : RunArgs) (q : String) :
    Event.saved q ∉ nonUniqueEvents args := by
  rw [nonUniqueEvents]
  split
  · exact List.not_mem_nil _
  · intro h
    cases List.mem_singleton.mp h


theorem run_runner_ing_error {σ : Type} (ops : RunnerOps σ) (r : σ) (args : RunArgs)
    (evs0 : List Event) (e : PyExc)
    (hing : ingest ops r args.add_graph = (evs0, .error e)) :
    run_runner ops r args = (evs0, .error e) := by
  rw [run_runner, hing]

theorem run_runner_ing_ok {σ : Type} (ops : RunnerOps σ) (r : σ) (args : RunArgs)
    (evs0 : List Event) (r1 : σ)
    (hing : ingest ops r args.add_graph = (evs0, .ok r1)) :
    run_runner ops r args = runPhase ops args evs0 r1 := by
  rw [run_runner, hing]

theorem runPhase_shape {σ : Type} (ops : RunnerOps σ) (args : RunArgs)
    (evs0 : List Event) (r1 : σ) (hno0 : ∀ q, Event.saved q ∉ evs0) :
    (∃ evs e, runPhase ops args evs0 r1 = (evs, .error e) ∧
      ∀ q, Event.saved q ∉ evs) ∨
    (∃ evs r', runPhase ops args evs0 r1 = (evs, .ok r') ∧
      ∀ q, Event.saved q ∉ evs) ∨
    (∃ evs r' p, args.model_out = some p ∧
      runPhase ops args evs0 r1 = (evs ++ [Event.ran, Event.saved p], .ok r') ∧
      ∀ q, Event.saved q ∉ evs) := by
  have hnoN : ∀ q, Event.saved q ∉ evs0 ++ nonUniqueEvents args := by
    intro q hq
    rcases List.mem_append.mp hq with h | h
    · exact hno0 q h
    · exact nonUniqueEvents_no_saved args q h
  rw [runPhase]
  by_cases hc : (!args.add_graph.isEmpty || !args.transform.isEmpty) = true
  · rw [if_pos hc]
    cases hr : ops.run (nonUniqueState ops r1 args) args.transform with
    | error e => exact Or.inl ⟨evs0 ++ nonUniqueEvents args, e, rfl, hnoN⟩
    | ok r3 =>
      cases hmo : args.model_out with
      | some p =>
        refine Or.inr (Or.inr ⟨evs0 ++ nonUniqueEvents args,
          ops.save_model r3 p, p, rfl, ?_, hnoN⟩)
        rw [List.append_assoc]
      | none =>
        refine Or.inr (Or.inl ⟨evs0 ++ nonUniqueEvents args ++ [Event.ran],
          r3, rfl, ?_⟩)
        intro q hq
        rcases List.mem_append.mp hq with h | h
        · exact hnoN q h
        · cases List.mem_singleton.mp h
  · rw [if_neg hc]
    by_cases hv : ops.verbose (nonUniqueState ops r1 args) = true
    · rw [if_pos hv]
      refine Or.inr (Or.inl ⟨evs0 ++ nonUniqueEvents args ++ [Event.shown],
        nonUniqueState ops r1 args, rfl, ?_⟩)
      intro q hq
      rcases List.mem_append.mp hq with h | h
      · exact hnoN q h
      · cases List.mem_singleton.mp h
    · rw [if_neg hv]
      exact Or.inr (Or.inl ⟨evs0 ++ nonUniqueEvents args,
        nonUniqueState ops r1 args, rfl, hnoN⟩)

theorem run_runner_shape {σ : Type} (ops : RunnerOps σ) (r : σ) (args : RunArgs) :
    (∃ evs e, run_runner ops r args = (evs, .error e) ∧
      ∀ q, Event.saved q ∉ evs) ∨
    (∃ evs r', run_runner ops r args = (evs, .ok r') ∧
      ∀ q, Event.saved q ∉ evs) ∨
    (∃ evs r' p, args.model_out = some p ∧
      run_runner ops r args = (evs ++ [Event.ran, Event.saved p], .ok r') ∧
      ∀ q, Event.saved q ∉ evs) := by
  cases hing : ingest ops r args.add_graph with
  | mk evs0 st0 =>
    have hno0 : ∀ q, Event.saved q ∉ evs0 := fun q => by
      have h0 := ingest_no_saved ops r args.add_graph q
      rw [hing] at h0
      exact h0
    cases st0 with
    | error e =>
      exact Or.inl ⟨evs0, e, run_runner_ing_error ops r args evs0 e hing, hno0⟩
    | ok r1 =>
      rw [run_runner_ing_ok ops r args evs0 r1 hing]
      exact runPhase_shape ops args evs0 r1 hno0

/-- Claim C7: with an output model path given, a `save_model` call is
recorded only immediately after a successful `runner.run` over the whole
transform list (the trace then ends in `ran, saved p` and the result is a
success); whenever `run_runner` ends in an exception — a transform failing,
or any earlier step failing — no save event is recorded at all. -/
theorem model_saved_only_after_run {σ : Type} (ops : RunnerOps σ) (r : σ)
    (args : RunArgs) (p : String) (hout : args.model_out = some p) :
    (∀ e, (run_runner ops r args).2 = .error e →
      ∀ q, Event.saved q ∉ (run_runner ops r args).1) ∧
    (∀ q, Event.saved q ∈ (run_runner ops r args).1 →
      q = p ∧ ∃ pre r3,
        run_runner ops r args = (pre ++ [Event.ran, Event.saved p], .ok r3)) := by
  rcases run_runner_shape ops r args with
    ⟨evs, e, hrr, hno⟩ | ⟨evs, r', hrr, hno⟩ | ⟨evs, r', p', hmo, hrr, hno⟩
  · constructor
    · intro e' _ q
      rw [hrr]
      exact hno q
    · intro q hq
      rw [hrr] at hq
      exact absurd hq (hno q)
  · constructor
    · intro e' he'
      rw [hrr] at he'
      simp at he'
    · intro q hq
      rw [hrr] at hq
      exact absurd hq (hno q)
  · have hp : p' = p := by
      rw [hmo] at hout
      exact Option.some_inj.mp hout
    rw [hp] at hrr
    constructor
    · intro e' he'
      rw [hrr] at he'
      simp at he'
    · intro q hq
      rw [hrr] at hq
      have hq2 : Event.saved q ∈ [Event.ran, Event.saved p] := by
        rcases List.mem_append.mp hq with h | h
        · exact absurd h (hno q)
        · exact h
      have hqp : q = p := by
        rcases List.mem_cons.mp hq2 with h | h
        · cases h
        · exact Event.saved.inj (List.mem_singleton.mp h)
      exact ⟨hqp, evs, r', hrr⟩

/-- Claim C7, witness: a run with one transform and `--model-out out.json`
over an all-succeeding runner, instantiating the theorem. -/
theorem model_saved_only_after_run_witness :
    (∀ e, (run_runner opsOk () argsOut).2 = .error e →
      ∀ q, Event.saved q ∉ (run_runner opsOk () argsOut).1) ∧
    (∀ q, Event.saved q ∈ (run_runner opsOk () argsOut).1 →
      q = "out.json" ∧ ∃ pre r3,
        run_runner opsOk () argsOut =
          (pre ++ [Event.ran, Event.saved "out.json"], .ok r3)) :=
  model_saved_only_after_run opsOk () argsOut "out.json" rfl
